import Mathlib

/-!
Verification development for the worker-pool repository:
`src/tools/semaphore/semaphore.{hpp,cpp}` and
`src/thread_pool/thread_pool.hpp`.

The C++ code is embedded shallowly:

* `Semaphore` holds a `size_t m_count` guarded by a mutex and a condition
  variable.  Every public operation runs its body atomically under the
  mutex, so we model each operation as an atomic step on the counter
  (a `Nat`, mirroring the unsigned `size_t`).
* A blocking `wait()` completes only at a moment when the predicate
  `m_count > 0` holds; a `timed_wait`/`try_wait` returns at a moment when
  either the predicate holds (it decrements and returns true) or the
  timeout has elapsed with the predicate false (no decrement, false).
* `ThreadPool<Callable>` is embedded as a record of its members.  The
  spawned threads run `ThreadLoop`, whose body in the source is empty, so
  no state mutation is ever performed by a worker thread; consequently the
  controller operations are the only mutators and the pool evolves
  sequentially.  A blocking semaphore `wait()` whose count is zero can
  therefore never be released and the call blocks forever; such an
  operation is modelled as `none`.
* Several non-void member functions (`Push`, `Pause`, `Continue` on their
  fall-through paths, and `Pop` everywhere) reach the end of the function
  body without a `return` statement.  The value such a call produces is
  modelled as `none : Option Bool` (respectively `none : Option Callable`),
  while an actual `return v;` statement is modelled as `some v`.
* `m_calls` is a `std::priority_queue<Callable>` ordered by `operator<`.
  It is embedded as the backing vector of the binary max-heap together
  with the heap algorithms of the GNU libstdc++ standard library
  (`std::push_heap` via `__push_heap`, `std::pop_heap` via `__pop_heap` /
  `__adjust_heap`), which is the library this header is built against.
-/

/-! ## Counting semaphore (`src/tools/semaphore/semaphore.cpp`) -/

/-- `Semaphore::post(n)`: `m_count += n` under the mutex (then notify). -/
def postStep (n count : Nat) : Nat := count + n

/-- `Semaphore::timed_wait(t)`: `wait_for` leaves the predicate
`m_count > 0` either satisfied (result `true`) or timed out with the
predicate false; then `m_count -= result`.  The argument is the counter
value at the instant the predicate is last evaluated under the mutex;
the result is the returned boolean and the new counter. -/
def timedWaitStep (count : Nat) : Bool × Nat :=
  if 0 < count then (true, count - 1) else (false, count)

/-- `Semaphore::try_wait()`: the body is exactly
`return timed_wait(seconds(0));`. -/
def tryWaitStep (count : Nat) : Bool × Nat := timedWaitStep count

/-- `Semaphore::wait()`: blocks until `m_count > 0`, then `--m_count`.
In a sequential run (no concurrent poster) a call finding the counter at
zero blocks forever, which is modelled as `none`. -/
def waitStep (count : Nat) : Option Nat :=
  if 0 < count then some (count - 1) else none

/-- One operation of a semaphore history. -/
inductive SemOp where
  | post (n : Nat)
  | wait
  | tryWait
  | timedWait
  deriving DecidableEq, Repr

/-- A completed-operation step: the state is
`(count, totalPosted, completedWaits)`.  A blocking `wait` can complete
only when the count is positive; `tryWait`/`timedWait` always return,
counting as a completed wait exactly when they return `true`. -/
def semStep : SemOp → Nat × Nat × Nat → Option (Nat × Nat × Nat)
  | .post n, (c, p, w) => some (postStep n c, p + n, w)
  | .wait, (c, p, w) =>
      match waitStep c with
      | some c2 => some (c2, p, w + 1)
      | none => none
  | .tryWait, (c, p, w) =>
      let r := tryWaitStep c
      some (r.2, p, w + (if r.1 then 1 else 0))
  | .timedWait, (c, p, w) =>
      let r := timedWaitStep c
      some (r.2, p, w + (if r.1 then 1 else 0))

/-- Run a list of semaphore operations from a given state. -/
def semRunFrom (s : Nat × Nat × Nat) : List SemOp → Option (Nat × Nat × Nat)
  | [] => some s
  | op :: ops =>
      match semStep op s with
      | some s2 => semRunFrom s2 ops
      | none => none

/-- Run a history on a semaphore constructed with `init_count_ = init`:
the constructor sets `m_count = init` with no posts and no waits yet. -/
def runSem (init : Nat) (ops : List SemOp) : Option (Nat × Nat × Nat) :=
  semRunFrom (init, 0, 0) ops

/-- The accounting invariant of a semaphore state. -/
def semInv (init : Nat) (s : Nat × Nat × Nat) : Prop :=
  s.1 + s.2.2 = init + s.2.1 ∧ s.2.2 ≤ init + s.2.1

theorem semInv_step (init : Nat) (op : SemOp) (s s2 : Nat × Nat × Nat)
    (hinv : semInv init s) (hstep : semStep op s = some s2) :
    semInv init s2 := by
  obtain ⟨c, p, w⟩ := s
  obtain ⟨h1, h2⟩ := hinv
  cases op with
  | post n =>
      simp only [semStep, postStep, Option.some.injEq] at hstep
      subst hstep
      constructor <;> simp_all <;> omega
  | wait =>
      simp only [semStep, waitStep] at hstep
      by_cases hc : 0 < c
      · simp only [hc, if_pos] at hstep
        simp only [Option.some.injEq] at hstep
        subst hstep
        constructor <;> simp_all <;> omega
      · simp [hc] at hstep
  | tryWait =>
      simp only [semStep, tryWaitStep, timedWaitStep, Option.some.injEq] at hstep
      by_cases hc : 0 < c
      · simp only [hc, if_pos, if_true] at hstep
        subst hstep
        constructor <;> simp_all <;> omega
      · simp only [hc, if_neg, if_false, ite_false] at hstep
        subst hstep
        constructor <;> simp_all
  | timedWait =>
      simp only [semStep, timedWaitStep, Option.some.injEq] at hstep
      by_cases hc : 0 < c
      · simp only [hc, if_pos, if_true] at hstep
        subst hstep
        constructor <;> simp_all <;> omega
      · simp only [hc, if_neg, if_false, ite_false] at hstep
        subst hstep
        constructor <;> simp_all

theorem semInv_run (init : Nat) (ops : List SemOp) (s s2 : Nat × Nat × Nat)
    (hinv : semInv init s) (hrun : semRunFrom s ops = some s2) :
    semInv init s2 := by
  induction ops generalizing s with
  | nil =>
      simp only [semRunFrom, Option.some.injEq] at hrun
      subst hrun; exact hinv
  | cons op ops ih =>
      simp only [semRunFrom] at hrun
      cases hstep : semStep op s with
      | none => rw [hstep] at hrun; exact absurd hrun (by simp)
      | some s1 =>
          rw [hstep] at hrun
          exact ih s1 (semInv_step init op s s1 hinv hstep) hrun

/-! ## Work items and the priority queue (`std::priority_queue<Callable>`)

`Callable` requires `operator()` with no arguments and `operator<`; the
pool compares items only through `operator<`.  We embed an item as a
priority (the value `operator<` compares) plus an identity tag that the
comparison ignores, so that equal-priority items remain distinguishable. -/

structure Callable where
  priority : Nat
  tag : Nat
  deriving DecidableEq, Repr

instance : Inhabited Callable := ⟨⟨0, 0⟩⟩

/-- `operator<` on `Callable`: compares priorities only. -/
def ltC (a b : Callable) : Bool := a.priority < b.priority

/-- libstdc++ `std::__push_heap(first, holeIndex, topIndex = 0, value)`:
sift the hole up from `hole` towards the root while the parent compares
less than `value`, then write `value` into the hole.  The structural
`fuel` only bounds the loop; every caller passes `hole + 1`, which
exceeds the iteration count (the hole index strictly decreases), so the
out-of-fuel branch is unreachable. -/
def pushHeapFuel (fuel : Nat) (a : List Callable) (hole : Nat)
    (value : Callable) : List Callable :=
  match fuel with
  | 0 => a.set hole value
  | fuel + 1 =>
      if hole = 0 then a.set 0 value
      else
        let parent := (hole - 1) / 2
        if ltC (a.getD parent default) value then
          pushHeapFuel fuel (a.set hole (a.getD parent default)) parent value
        else
          a.set hole value

/-- `std::__push_heap` entered at hole index `hole`. -/
def pushHeapAux (a : List Callable) (hole : Nat) (value : Callable) :
    List Callable :=
  pushHeapFuel (hole + 1) a hole value

/-- `std::priority_queue::push(x)`: `c.push_back(x)` then
`std::push_heap(c.begin(), c.end())`, whose hole starts at the last
index with `topIndex = 0`. -/
def pushHeap (a : List Callable) (v : Callable) : List Callable :=
  pushHeapAux (a ++ [v]) a.length v

/-- The down-phase loop of libstdc++ `std::__adjust_heap`: while the hole
has two children inside `[0, len)`, move the larger child up into the
hole.  Returns the array, the hole index and the final `secondChild`.
The structural `fuel` only bounds the loop; every caller passes
`len + 1`, which exceeds the iteration count (`secondChild` strictly
increases and stays below `len`), so the out-of-fuel branch is
unreachable. -/
def adjustLoopFuel (fuel : Nat) (a : List Callable) (hole sc len : Nat) :
    List Callable × Nat × Nat :=
  match fuel with
  | 0 => (a, hole, sc)
  | fuel + 1 =>
      if sc < (len - 1) / 2 then
        let sc2 := 2 * (sc + 1)
        let sc3 := if ltC (a.getD sc2 default) (a.getD (sc2 - 1) default)
          then sc2 - 1 else sc2
        adjustLoopFuel fuel (a.set hole (a.getD sc3 default)) sc3 sc3 len
      else (a, hole, sc)

/-- libstdc++ `std::__adjust_heap(first, holeIndex = 0, len, value)`:
push the hole down to a leaf (with the special case for a node that has
only a left child when `len` is even), then sift `value` up from the
hole with `__push_heap`. -/
def adjustHeap (a : List Callable) (len : Nat) (value : Callable) :
    List Callable :=
  let r := adjustLoopFuel (len + 1) a 0 0 len
  let r2 :=
    if len % 2 = 0 ∧ r.2.2 = (len - 2) / 2 then
      let sc2 := 2 * (r.2.2 + 1)
      (r.1.set r.2.1 (r.1.getD (sc2 - 1) default), sc2 - 1)
    else (r.1, r.2.1)
  pushHeapAux r2.1 r2.2 value

/-- `std::priority_queue::pop()`: `std::pop_heap(c.begin(), c.end())`
then `c.pop_back()`.  `pop_heap` moves the root into the last slot (the
slot `pop_back` removes) and re-heaps the remaining prefix of length
`n - 1` with `__adjust_heap` seeded by the old last element; it is a
no-op when the range has at most one element. -/
def popHeap (c : List Callable) : List Callable :=
  if c.length ≤ 1 then c.dropLast
  else
    let n := c.length
    adjustHeap (c.take (n - 1)) (n - 1) (c.getD (n - 1) default)

/-- `std::priority_queue::top()`: the front of the backing vector. -/
def heapTop (c : List Callable) : Callable := c.getD 0 default

/-! ## The thread pool (`src/thread_pool/thread_pool.hpp`)

The state records the data members of `ThreadPool<Callable>`.  The
worker map `m_threads` and the removal queue `m_to_remove` enter the
claims only through their sizes (`GetSize()` returns
`m_threads.size()`, and newly spawned threads have fresh distinct ids),
so they are embedded by their cardinalities.  Each `Semaphore` member is
embedded by its count.  Because `ThreadLoop` has an empty body, spawned
threads mutate nothing and the controller operations below are the only
transitions of the state. -/

inductive Status where
  | RUNNING
  | PAUSED
  | FINISHED
  deriving DecidableEq, Repr

structure PoolState where
  status : Status          -- m_status
  threads : Nat            -- m_threads.size()
  calls : List Callable    -- m_calls (backing vector of the heap)
  toRemove : Nat           -- m_to_remove.size()
  isEmpty : Nat            -- m_is_empty count
  actions : Nat            -- m_actions count
  toStop : Nat             -- m_to_stop count
  runningThreads : Nat     -- m_running_threads count
  deriving DecidableEq, Repr

/-- `ThreadPool::GetSize()`: `return m_threads.size();`. -/
def GetSize (s : PoolState) : Nat := s.threads

/-- `ThreadPool::AddThreads(nthread_)`: spawn `nthread_` threads (each
inserted into `m_threads` under a fresh id), then
`m_running_threads.post(nthread_)`. -/
def AddThreads (nthread : Nat) (s : PoolState) : PoolState :=
  { s with
    threads := s.threads + nthread
    runningThreads := postStep nthread s.runningThreads }

/-- `ThreadPool::RemoveThreads(nthread_)`: the function body in the
source is empty, so the state is returned unchanged. -/
def RemoveThreads (nthread : Nat) (s : PoolState) : PoolState :=
  let _ := nthread
  s

/-- The `ThreadPool(threads_num_)` constructor: member initializers set
`m_status = RUNNING`, empty containers, `m_is_empty(0)`, `m_actions(0)`,
`m_to_stop(0)`, `m_running_threads(threads_num_)`; the body calls
`AddThreads(threads_num_)`. -/
def mkThreadPool (threadsNum : Nat) : PoolState :=
  AddThreads threadsNum
    { status := Status.RUNNING
      threads := 0
      calls := []
      toRemove := 0
      isEmpty := 0
      actions := 0
      toStop := 0
      runningThreads := threadsNum }

/-- `ThreadPool::Push(call_)`: returns `false` at once when FINISHED;
otherwise pushes onto `m_calls` under `m_calls_lock`, `m_actions.post()`,
`m_is_empty.try_wait()`, and then falls off the end of the `bool`
function without a `return` statement (result `none`). -/
def pushPool (c : Callable) (s : PoolState) : PoolState × Option Bool :=
  match s.status with
  | Status.FINISHED => (s, some false)
  | _ =>
      ({ s with
          calls := pushHeap s.calls c
          actions := postStep 1 s.actions
          isEmpty := (tryWaitStep s.isEmpty).2 }, none)

/-- The `for (i = 0; i < GetSize(); ++i) m_running_threads.wait();` loop
of `Pause`: `n` successive blocking waits on one counter; `none` when
some wait blocks forever. -/
def waitN (n count : Nat) : Option Nat :=
  match n with
  | 0 => some count
  | n + 1 =>
      match waitStep count with
      | some c2 => waitN n c2
      | none => none

/-- `ThreadPool::Pause()`: `switch (m_status)` returns `true` when
PAUSED and `false` when FINISHED; when RUNNING it falls through, waits
once on `m_running_threads` per current worker, posts `GetSize()` on
`m_actions`, and falls off the end of the `bool` function without a
`return` statement (result `none`).  The whole call is `none` when one
of the waits blocks forever. -/
def pausePool (s : PoolState) : Option (PoolState × Option Bool) :=
  match s.status with
  | Status.PAUSED => some (s, some true)
  | Status.FINISHED => some (s, some false)
  | Status.RUNNING =>
      match waitN (GetSize s) s.runningThreads with
      | some r2 =>
          some ({ s with
                   runningThreads := r2
                   actions := postStep (GetSize s) s.actions }, none)
      | none => none

/-- `ThreadPool::Continue()`: `switch (m_status)` returns `true` when
RUNNING and `false` when FINISHED; when PAUSED it falls through, posts
`GetSize()` on `m_running_threads`, and falls off the end of the `bool`
function without a `return` statement (result `none`). -/
def continuePool (s : PoolState) : PoolState × Option Bool :=
  match s.status with
  | Status.RUNNING => (s, some true)
  | Status.FINISHED => (s, some false)
  | Status.PAUSED =>
      ({ s with runningThreads := postStep (GetSize s) s.runningThreads },
        none)

/-- The error thrown by `SetNumOfThreads`: `std::length_error`. -/
inductive PoolError where
  | lengthError
  deriving DecidableEq, Repr

/-- `ThreadPool::SetNumOfThreads(nthread_)`: `false` when FINISHED;
`throw length_error` when `nthread_ > THREAD_MAX`; otherwise
`AddThreads(nthread_ - GetSize())` when `GetSize() <= nthread_`, else
`RemoveThreads(GetSize() - nthread_)`; then `return true`.  `THREAD_MAX`
(the hardware-concurrency ceiling) is environment-dependent and passed
as `threadMax`. -/
def SetNumOfThreads (threadMax nthread : Nat) (s : PoolState) :
    PoolState × Except PoolError Bool :=
  if s.status = Status.FINISHED then (s, Except.ok false)
  else if threadMax < nthread then (s, Except.error PoolError.lengthError)
  else if GetSize s ≤ nthread then
    (AddThreads (nthread - GetSize s) s, Except.ok true)
  else
    (RemoveThreads (GetSize s - nthread) s, Except.ok true)

/-- `ThreadPool::Finish(let_complete_)`: `false` when already FINISHED;
otherwise calls `Continue()` (return value discarded; it never blocks),
then when `let_complete_` waits on `m_is_empty` (blocking forever —
`none` — when its count is zero, as nothing can post it), sets
`m_status = FINISHED`, calls `RemoveThreads(GetSize())` and
`return true`. -/
def finishPool (letComplete : Bool) (s : PoolState) :
    Option (PoolState × Option Bool) :=
  if s.status = Status.FINISHED then some (s, some false)
  else
    let s1 := (continuePool s).1
    let s2opt :=
      if letComplete then
        match waitStep s1.isEmpty with
        | some e2 => some { s1 with isEmpty := e2 }
        | none => none
      else some s1
    match s2opt with
    | none => none
    | some s2 =>
        let s3 := { s2 with status := Status.FINISHED }
        some (RemoveThreads (GetSize s3) s3, some true)

/-- `ThreadPool::Pop()`: with no emptiness check it reads
`m_calls.top()` (undefined on an empty queue — outer `none`) and calls
`m_calls.pop()`; the function then ends without any `return` statement,
so no `Callable` value is produced (inner `none`). -/
def popPool (calls : List Callable) :
    Option (List Callable × Option Callable) :=
  match calls with
  | [] => none
  | _ :: _ => some (popHeap calls, none)

/-- A controller call, as issued by client code. -/
inductive PoolOp where
  | push (c : Callable)
  | pause
  | cont
  | setNum (threadMax nthread : Nat)
  | finish (letComplete : Bool)
  deriving DecidableEq, Repr

/-- Effect of one controller call on the pool state (`none` when the
call blocks forever; a thrown `length_error` propagates to the caller
with the state unchanged). -/
def applyOp (op : PoolOp) (s : PoolState) : Option PoolState :=
  match op with
  | .push c => some (pushPool c s).1
  | .pause => (pausePool s).map Prod.fst
  | .cont => some (continuePool s).1
  | .setNum tm n => some (SetNumOfThreads tm n s).1
  | .finish b => (finishPool b s).map Prod.fst

/-- Run a sequence of controller calls. -/
def runPool (s : PoolState) : List PoolOp → Option PoolState
  | [] => some s
  | op :: ops =>
      match applyOp op s with
      | some s2 => runPool s2 ops
      | none => none

/-! ## Shared invariant: `m_is_empty` is never posted

No code path in the repository ever calls `post` on `m_is_empty`:
`Push` only calls `try_wait()` on it, `Finish` only `wait()`s on it, and
`ThreadLoop` is empty.  Hence its count, `0` at construction, stays `0`
for ever. -/

theorem isEmpty_zero_step (op : PoolOp) (s s2 : PoolState)
    (h0 : s.isEmpty = 0) (h : applyOp op s = some s2) : s2.isEmpty = 0 := by
  obtain ⟨st, th, ca, tr, ie, ac, ts, rt⟩ := s
  simp only at h0
  subst h0
  cases op with
  | push c =>
      cases st <;>
        simp only [applyOp, pushPool, Option.some.injEq] at h <;>
        subst h <;>
        simp [tryWaitStep, timedWaitStep]
  | pause =>
      cases st with
      | RUNNING =>
          simp only [applyOp, pausePool, GetSize] at h
          cases hw : waitN th rt <;> rw [hw] at h <;>
            simp only [Option.map, Option.some.injEq] at h
          · exact Option.noConfusion h
          · subst h; rfl
      | PAUSED =>
          simp only [applyOp, pausePool, Option.map, Option.some.injEq] at h
          subst h; rfl
      | FINISHED =>
          simp only [applyOp, pausePool, Option.map, Option.some.injEq] at h
          subst h; rfl
  | cont =>
      cases st <;>
        simp only [applyOp, continuePool, Option.some.injEq] at h <;>
        subst h <;> rfl
  | setNum tm n =>
      simp only [applyOp, Option.some.injEq] at h
      subst h
      simp only [SetNumOfThreads]
      split_ifs <;> simp [AddThreads, RemoveThreads]
  | finish b =>
      cases st with
      | FINISHED =>
          simp only [applyOp, finishPool, reduceCtorEq, if_true, if_pos,
            Option.map, Option.some.injEq] at h
          subst h; rfl
      | RUNNING =>
          cases b <;>
            simp [applyOp, finishPool, continuePool, GetSize,
              RemoveThreads, waitStep, Option.map] at h
          · subst h; rfl
      | PAUSED =>
          cases b <;>
            simp [applyOp, finishPool, continuePool, GetSize,
              RemoveThreads, waitStep, Option.map] at h
          · subst h; rfl

theorem isEmpty_zero_run (ops : List PoolOp) (s s2 : PoolState)
    (h0 : s.isEmpty = 0) (h : runPool s ops = some s2) : s2.isEmpty = 0 := by
  induction ops generalizing s with
  | nil =>
      simp only [runPool, Option.some.injEq] at h
      subst h; exact h0
  | cons op ops ih =>
      simp only [runPool] at h
      cases hstep : applyOp op s with
      | none => rw [hstep] at h; exact absurd h (by simp)
      | some s1 =>
          rw [hstep] at h
          exact ih s1 (isEmpty_zero_step op s s1 h0 hstep) h

/-! ## Claim theorems -/

/-- C1: on a pool that is not FINISHED, `Push` inserts the item into the
priority queue under the queue lock and posts one unit on `m_actions`,
but then falls off the end of the `bool` function without any `return`
statement: evaluated on a freshly constructed running pool, the call
produces no boolean at all, in particular not `true` as the claim
states.  (The FINISHED branch does return `false`; see the C5 theorem.) -/
theorem push_running_pool_produces_no_return_value :
    pushPool ⟨5, 0⟩ (mkThreadPool 1) =
      ({ status := Status.RUNNING, threads := 1, calls := [⟨5, 0⟩],
         toRemove := 0, isEmpty := 0, actions := 1, toStop := 0,
         runningThreads := 2 }, none) ∧
    (pushPool ⟨5, 0⟩ (mkThreadPool 1)).2 ≠ some true := by decide

/-- C2: `Finish(drain = true)` never returns on any reachable
non-finished pool: no code path ever posts `m_is_empty` (`ThreadLoop` is
empty, `Push` only try-waits), so the drain `wait()` blocks forever; and
`RemoveThreads` has an empty body, so even the removal step it would
perform afterwards leaves the worker set — hence `GetSize()` — exactly
as it was, not `0`. -/
theorem finish_drain_blocks_forever (n : Nat) (ops : List PoolOp)
    (s : PoolState) (hrun : runPool (mkThreadPool n) ops = some s)
    (hs : s.status ≠ Status.FINISHED) :
    finishPool true s = none ∧ RemoveThreads (GetSize s) s = s := by
  have h0 : s.isEmpty = 0 := by
    refine isEmpty_zero_run ops (mkThreadPool n) s ?_ hrun
    simp [mkThreadPool, AddThreads]
  refine ⟨?_, rfl⟩
  obtain ⟨st, th, ca, tr, ie, ac, ts, rt⟩ := s
  simp only at h0 hs
  subst h0
  cases st with
  | RUNNING => simp [finishPool, continuePool, waitStep]
  | PAUSED => simp [finishPool, continuePool, waitStep]
  | FINISHED => exact absurd rfl hs

/-- C2 witness: a concrete run — construct with one thread, push one
item — reaches a running pool on which `Finish(true)` blocks forever
and `RemoveThreads(GetSize())` changes nothing. -/
theorem finish_drain_blocks_forever_witness :
    finishPool true
        { status := Status.RUNNING, threads := 1, calls := [⟨1, 0⟩],
          toRemove := 0, isEmpty := 0, actions := 1, toStop := 0,
          runningThreads := 2 } = none ∧
      RemoveThreads
          (GetSize
            { status := Status.RUNNING, threads := 1, calls := [⟨1, 0⟩],
              toRemove := 0, isEmpty := 0, actions := 1, toStop := 0,
              runningThreads := 2 })
          { status := Status.RUNNING, threads := 1, calls := [⟨1, 0⟩],
            toRemove := 0, isEmpty := 0, actions := 1, toStop := 0,
            runningThreads := 2 } =
        { status := Status.RUNNING, threads := 1, calls := [⟨1, 0⟩],
          toRemove := 0, isEmpty := 0, actions := 1, toStop := 0,
          runningThreads := 2 } :=
  finish_drain_blocks_forever 1 [PoolOp.push ⟨1, 0⟩] _ (by decide)
    (by decide)

/-- C3: over every history of completed `post`/`wait`/`try_wait`/
`timed_wait` operations, the number of completed (successful) waits
never exceeds the initial count plus the cumulative posts, and the
count plus the completed waits always equals exactly that sum — the
counter never goes below zero (each decrement is guarded by
`m_count > 0`). -/
theorem semaphore_waits_never_exceed_posts (init : Nat) (ops : List SemOp)
    (c p w : Nat) (h : runSem init ops = some (c, p, w)) :
    w ≤ init + p ∧ c + w = init + p := by
  simp only [runSem] at h
  have hinv : semInv init (c, p, w) :=
    semInv_run init ops (init, 0, 0) (c, p, w) (by constructor <;> simp) h
  exact ⟨hinv.2, hinv.1⟩

/-- C3 witness: initial count 1, then `post 2`, `wait`, `try_wait`,
`timed_wait` — three completed waits against 1 + 2 units. -/
theorem semaphore_waits_never_exceed_posts_witness :
    3 ≤ 1 + 2 ∧ 0 + 3 = 1 + 2 :=
  semaphore_waits_never_exceed_posts 1
    [SemOp.post 2, SemOp.wait, SemOp.tryWait, SemOp.timedWait] 0 2 3
    (by decide)

/-- C4: `Pause()` on a freshly constructed running pool with one worker
does perform one `wait()` on `m_running_threads` per worker, but the
permit count lands at 1, not 0 (the constructor double-seeded it), it
posts one unit per worker on `m_actions`, the status is left RUNNING —
never set to PAUSED — and the `bool` function ends without a `return`
statement, so no `true` is returned. -/
theorem pause_running_pool_keeps_status_and_returns_no_value :
    pausePool (mkThreadPool 1) =
      some ({ status := Status.RUNNING, threads := 1, calls := [],
              toRemove := 0, isEmpty := 0, actions := 1, toStop := 0,
              runningThreads := 1 }, none) := by decide

/-- C5: FINISHED is terminal — from any state whose status is FINISHED,
`Push`, `Pause`, `Continue`, `SetNumOfThreads` (and `Finish` itself)
each return `false` and leave the entire pool state unchanged, so the
status can never leave FINISHED. -/
theorem finished_pool_rejects_all_operations (s : PoolState) (c : Callable)
    (tm n : Nat) (b : Bool) (h : s.status = Status.FINISHED) :
    pushPool c s = (s, some false) ∧
    pausePool s = some (s, some false) ∧
    continuePool s = (s, some false) ∧
    SetNumOfThreads tm n s = (s, Except.ok false) ∧
    finishPool b s = some (s, some false) := by
  obtain ⟨st, th, ca, tr, ie, ac, ts, rt⟩ := s
  simp only at h
  subst h
  refine ⟨rfl, rfl, rfl, ?_, ?_⟩ <;> simp [SetNumOfThreads, finishPool]

/-- C5 witness: a concrete finished pool with workers, a queued item
and nonzero counters refuses every operation unchanged. -/
theorem finished_pool_rejects_all_operations_witness :
    pushPool ⟨9, 9⟩
        { status := Status.FINISHED, threads := 2, calls := [⟨3, 0⟩],
          toRemove := 0, isEmpty := 0, actions := 1, toStop := 0,
          runningThreads := 2 } =
      ({ status := Status.FINISHED, threads := 2, calls := [⟨3, 0⟩],
         toRemove := 0, isEmpty := 0, actions := 1, toStop := 0,
         runningThreads := 2 }, some false) ∧
    pausePool
        { status := Status.FINISHED, threads := 2, calls := [⟨3, 0⟩],
          toRemove := 0, isEmpty := 0, actions := 1, toStop := 0,
          runningThreads := 2 } =
      some ({ status := Status.FINISHED, threads := 2, calls := [⟨3, 0⟩],
              toRemove := 0, isEmpty := 0, actions := 1, toStop := 0,
              runningThreads := 2 }, some false) ∧
    continuePool
        { status := Status.FINISHED, threads := 2, calls := [⟨3, 0⟩],
          toRemove := 0, isEmpty := 0, actions := 1, toStop := 0,
          runningThreads := 2 } =
      ({ status := Status.FINISHED, threads := 2, calls := [⟨3, 0⟩],
         toRemove := 0, isEmpty := 0, actions := 1, toStop := 0,
         runningThreads := 2 }, some false) ∧
    SetNumOfThreads 4 3
        { status := Status.FINISHED, threads := 2, calls := [⟨3, 0⟩],
          toRemove := 0, isEmpty := 0, actions := 1, toStop := 0,
          runningThreads := 2 } =
      ({ status := Status.FINISHED, threads := 2, calls := [⟨3, 0⟩],
         toRemove := 0, isEmpty := 0, actions := 1, toStop := 0,
         runningThreads := 2 }, Except.ok false) ∧
    finishPool true
        { status := Status.FINISHED, threads := 2, calls := [⟨3, 0⟩],
          toRemove := 0, isEmpty := 0, actions := 1, toStop := 0,
          runningThreads := 2 } =
      some ({ status := Status.FINISHED, threads := 2, calls := [⟨3, 0⟩],
              toRemove := 0, isEmpty := 0, actions := 1, toStop := 0,
              runningThreads := 2 }, some false) :=
  finished_pool_rejects_all_operations _ ⟨9, 9⟩ 4 3 true rfl

/-- The push sequence refuting stability: two items of priority 1 (tags
0 and 1, in that push order) followed by one of priority 2. -/
def q6 : List Callable :=
  pushHeap (pushHeap (pushHeap [] ⟨1, 0⟩) ⟨1, 1⟩) ⟨2, 2⟩

/-- C6 counterexample: with items of priority 1 tagged 0 then 1 pushed
in that order (then a priority-2 item), the queue dequeues the
priority-2 item first and then tag 1 — the equal-priority item pushed
second — before tag 0: the heap is not stable, refuting "the item
pushed first is dequeued first". -/
theorem equal_priority_fifo_counterexample :
    (⟨1, 0⟩ : Callable).priority = (⟨1, 1⟩ : Callable).priority ∧
    heapTop q6 = ⟨2, 2⟩ ∧
    heapTop (popHeap q6) = ⟨1, 1⟩ ∧
    heapTop (popHeap q6) ≠ ⟨1, 0⟩ ∧
    heapTop (popHeap (popHeap q6)) = ⟨1, 0⟩ := by decide

/-- C6 amended: the work queue (`std::priority_queue`, a binary
max-heap) is not stable — there is a push sequence in which an item of
equal priority pushed later is dequeued before the one pushed earlier;
equal-priority dequeue order follows the heap algorithm, not insertion
order. -/
theorem equal_priority_dequeue_not_insertion_order :
    ∃ a b c2 : Callable,
      a.priority = b.priority ∧ a ≠ b ∧
      heapTop (popHeap (pushHeap (pushHeap (pushHeap [] a) b) c2)) = b ∧
      heapTop (popHeap (popHeap (pushHeap (pushHeap (pushHeap [] a) b) c2)))
        = a :=
  ⟨⟨1, 0⟩, ⟨1, 1⟩, ⟨2, 2⟩, by decide⟩

/-- C7: after constructing a pool with `n` threads the available count
of `m_running_threads` is `2 * n`, not `n`: the member initializer
seeds the semaphore with `threads_num_` and the constructor body then
calls `AddThreads(threads_num_)`, which posts one more unit per spawned
worker.  At `n = 1` the permit count (2) differs from the worker count
(1). -/
theorem constructor_double_posts_running_permits (n : Nat) :
    (mkThreadPool n).runningThreads = 2 * n ∧
    GetSize (mkThreadPool n) = n ∧
    (mkThreadPool 1).runningThreads ≠ GetSize (mkThreadPool 1) := by
  refine ⟨?_, ?_, by decide⟩ <;>
    simp only [mkThreadPool, AddThreads, postStep, GetSize] <;> omega

/-- C8: on a non-FINISHED pool, `SetNumOfThreads(n)` with `n` above the
`THREAD_MAX` ceiling throws `std::length_error` — a distinct error, not
a boolean refusal — before touching anything: the state (workers,
queue, status, counters) is returned exactly unchanged. -/
theorem set_num_over_ceiling_throws_unchanged (tm n : Nat) (s : PoolState)
    (h1 : s.status ≠ Status.FINISHED) (h2 : tm < n) :
    SetNumOfThreads tm n s = (s, Except.error PoolError.lengthError) := by
  simp [SetNumOfThreads, h1, h2]

/-- C8 witness: ceiling 2, request 3 on a fresh running pool. -/
theorem set_num_over_ceiling_throws_unchanged_witness :
    SetNumOfThreads 2 3 (mkThreadPool 1) =
      (mkThreadPool 1, Except.error PoolError.lengthError) :=
  set_num_over_ceiling_throws_unchanged 2 3 (mkThreadPool 1) (by decide)
    (by decide)

/-- C9: `try_wait()` (the body is `return timed_wait(seconds(0));`)
returns `true` and decrements the count by exactly one when the count
was positive, and returns `false` with the count unchanged otherwise;
and whenever `timed_wait` returns `false` the count is unchanged. -/
theorem try_wait_decrements_iff_positive (c : Nat) :
    (0 < c → tryWaitStep c = (true, c - 1)) ∧
    (c = 0 → tryWaitStep c = (false, c)) ∧
    ((timedWaitStep c).1 = false → (timedWaitStep c).2 = c) := by
  refine ⟨?_, ?_, ?_⟩
  · intro h
    simp [tryWaitStep, timedWaitStep, h]
  · intro h
    subst h
    simp [tryWaitStep, timedWaitStep]
  · intro h
    by_cases hc : 0 < c
    · simp [timedWaitStep, hc] at h
    · simp [timedWaitStep, hc]

/-- C9 witness: counts 1 and 0. -/
theorem try_wait_decrements_iff_positive_witness :
    tryWaitStep 1 = (true, 1 - 1) ∧ tryWaitStep 0 = (false, 0) ∧
    (timedWaitStep 0).2 = 0 :=
  ⟨(try_wait_decrements_iff_positive 1).1 (by decide),
   (try_wait_decrements_iff_positive 0).2.1 rfl,
   (try_wait_decrements_iff_positive 0).2.2 (by decide)⟩

/-- C10: `Pop` has the unstated precondition that the work queue is
non-empty — it reads `m_calls.top()` and pops with no emptiness check,
so in the total embedding the empty-queue branch is the error case
`none`; and on a non-empty queue the structural effect is defined but
the declared `Callable` return value is never produced by any `return`
statement (the inner component is `none`). -/
theorem pop_requires_nonempty_and_returns_nothing (q : List Callable) :
    (q = [] → popPool q = none) ∧
    (q ≠ [] → popPool q = some (popHeap q, none)) := by
  cases q <;> constructor <;> intro h <;> simp_all [popPool]

/-- C10 witness: the empty queue is the error case; a one-item queue
pops to the empty queue yet produces no returned `Callable`. -/
theorem pop_requires_nonempty_and_returns_nothing_witness :
    popPool [] = none ∧
    popPool [⟨1, 0⟩] = some (popHeap [⟨1, 0⟩], none) :=
  ⟨(pop_requires_nonempty_and_returns_nothing []).1 rfl,
   (pop_requires_nonempty_and_returns_nothing [⟨1, 0⟩]).2 (by decide)⟩
